import Mathlib

/-!
Shallow embedding of the doc2dev ingestion backend (`backend/main.py`,
`src/repository_db.py`): repository identity resolution, the WebSocket
connection manager, the repository registry, and the background ingestion
orchestrator, together with theorems checking the specification's claims.
Strings are modelled as `List Char` where character-level reasoning is
needed, and as `String` elsewhere.
-/

/-- ASCII model of the Python regex class `\w`: letters, digits, underscore. -/
def isWordChar (c : Char) : Bool := c.isAlphanum || c == '_'

/-- The character class `[\w.-]` used by the owner/name groups of the regex
`github\.com[/:]([\w.-]+)/([\w.-]+)` in `parse_github_url`. -/
def isRepoChar (c : Char) : Bool := isWordChar c || c == '.' || c == '-'

/-- ASCII whitespace stripped by Python `str.strip()`. -/
def isPySpace (c : Char) : Bool :=
  c == ' ' || c == '\t' || c == '\n' || c == '\r' || c == '\x0b' || c == '\x0c'

/-- The literal `github.com` matched by the regex. -/
def githubLit : List Char := ['g', 'i', 't', 'h', 'u', 'b', '.', 'c', 'o', 'm']

/-- Match a literal character sequence at the head of the input, returning
the remainder on success (the literal part of a regex match). -/
def dropLit : List Char → List Char → Option (List Char)
  | [], s => some s
  | _ :: _, [] => none
  | l :: ls, c :: cs => if c == l then dropLit ls cs else none

/-- Match `github\.com[/:]([\w.-]+)/([\w.-]+)` at the head of `s`, returning
the two captured groups.  Group backtracking is degenerate here: `[\w.-]+`
cannot match `/`, so both groups are exactly the maximal class runs. -/
def matchRepoAt (s : List Char) : Option (List Char × List Char) :=
  match dropLit githubLit s with
  | none => none
  | some rest =>
    match rest with
    | [] => none
    | sep :: rest2 =>
      if sep == '/' || sep == ':' then
        let owner := rest2.takeWhile isRepoChar
        match rest2.dropWhile isRepoChar with
        | '/' :: rest3 =>
          let nm := rest3.takeWhile isRepoChar
          if owner.isEmpty || nm.isEmpty then none else some (owner, nm)
        | _ => none
      else none

/-- `re.search`: try to match at each position, leftmost first. -/
def searchRepo : List Char → Option (List Char × List Char)
  | [] => none
  | c :: cs =>
    match matchRepoAt (c :: cs) with
    | some r => some r
    | none => searchRepo cs

/-- `url.strip()`. -/
def pyStrip (s : List Char) : List Char :=
  ((s.dropWhile isPySpace).reverse.dropWhile isPySpace).reverse

/-- Does the string end in `.git`? -/
def endsWithGit (s : List Char) : Bool := s.reverse.take 4 == ['t', 'i', 'g', '.']

/-- `if url.endswith(".git"): url = url[:-4]`. -/
def stripGitSuffix (s : List Char) : List Char :=
  if endsWithGit s then s.take (s.length - 4) else s

/-- First-occurrence split: `findSplit sep s = some (pre, post)` when
`s = pre ++ sep ++ post` at the first occurrence of `sep`. -/
def findSplit (sep : List Char) : List Char → Option (List Char × List Char)
  | [] => none
  | c :: cs =>
    match dropLit sep (c :: cs) with
    | some rest => some ([], rest)
    | none =>
      match findSplit sep cs with
      | some (pre, post) => some (c :: pre, post)
      | none => none

/-- `parts = s.split(sep)`; the value of `parts[1]` when `len(parts) > 1`
(the chunk between the first and second occurrence of `sep`). -/
def secondChunk (sep s : List Char) : Option (List Char) :=
  match findSplit sep s with
  | none => none
  | some (_, post) =>
    match findSplit sep post with
    | none => some post
    | some (pre2, _) => some pre2

/-- Branch of `parse_github_url` for `"github.com/" in url`: split on the
separator and take the first two `/`-components of `parts[1]`. -/
def branchHttpsSplit (u : List Char) : Option (List Char) :=
  match secondChunk ("github.com/".toList) u with
  | none => none
  | some part1 =>
    if part1.contains '/' then
      match part1.splitOn '/' with
      | owner :: nm :: _ => some (owner ++ '/' :: nm)
      | _ => none
    else none

/-- Branch of `parse_github_url` for `"git@github.com:" in url`. -/
def branchScpSplit (u : List Char) : Option (List Char) :=
  match secondChunk ("git@github.com:".toList) u with
  | none => none
  | some part1 =>
    if part1.contains '/' then
      match part1.splitOn '/' with
      | owner :: nm :: _ => some (owner ++ '/' :: nm)
      | _ => none
    else none

/-- Characters allowed in a URL scheme after the first letter. -/
def isSchemeChar (c : Char) : Bool := c.isAlphanum || c == '+' || c == '-' || c == '.'

/-- Path-component extraction of Python `urllib.parse.urlparse` (a standard
library collaborator used by `parse_github_url`'s last-resort branch): drop a
leading `scheme:`, a `//netloc`, and any `?query` / `#fragment` part. -/
def urlparsePath (s : List Char) : List Char :=
  let afterScheme :=
    match findSplit [':'] s with
    | some (pre, post) =>
      match pre with
      | [] => s
      | c :: cs => if c.isAlpha && cs.all isSchemeChar then post else s
    | none => s
  let noFrag :=
    match findSplit ['#'] afterScheme with
    | some (pre, _) => pre
    | none => afterScheme
  let noQuery :=
    match findSplit ['?'] noFrag with
    | some (pre, _) => pre
    | none => noFrag
  match noQuery with
  | '/' :: '/' :: rest => rest.dropWhile (fun c => !(c == '/'))
  | other => other

/-- Last-resort branch: the final two non-empty path segments of the parsed URL. -/
def branchUrlPath (u : List Char) : Option (List Char) :=
  let path_parts := ((urlparsePath u).splitOn '/').filter (fun p => !p.isEmpty)
  match path_parts.reverse with
  | nm :: owner :: _ => some (owner ++ '/' :: nm)
  | _ => none

/-- The strategy cascade of `parse_github_url`, applied to the normalized
(whitespace- and `.git`-stripped) reference: the `github\.com[/:]owner/name`
regex search, then the `github.com/` split, then the `git@github.com:` split,
then the last two non-empty path segments of the parsed URL. -/
def parseCore (u : List Char) : Option (List Char) :=
  match searchRepo u with
  | some (owner, nm) => some (owner ++ '/' :: nm)
  | none =>
    match branchHttpsSplit u with
    | some r => some r
    | none =>
      match branchScpSplit u with
      | some r => some r
      | none => branchUrlPath u

/-- `parse_github_url` (`backend/main.py:163`): strip whitespace and a trailing
`.git`, then run the strategy cascade.  `none` models `ValueError`. -/
def parse_github_url (url : List Char) : Option (List Char) :=
  parseCore (stripGitSuffix (pyStrip url))

/-- `extract_org_repo` (`backend/main.py:230`): split the `owner/name` string
returned by `parse_github_url`; exactly two components are required. -/
def extract_org_repo (url : List Char) : Option (List Char × List Char) :=
  match parse_github_url url with
  | none => none
  | some rn =>
    match rn.splitOn '/' with
    | [owner, nm] => some (owner, nm)
    | _ => none

/-- Replace every occurrence of one character by another (`str.replace` with
single-character arguments). -/
def replChar (a b : Char) (s : List Char) : List Char :=
  s.map (fun c => if c == a then b else c)

/-- The derived storage identifier: `f"{org}_{repo}".replace("-", "_")`
(`backend/main.py:751-757`). -/
def derivedTableName (org nm : List Char) : List Char :=
  replChar '-' '_' (org ++ '_' :: nm)

/-- The head of `t`, if any, fails `p` (used to delimit maximal regex runs). -/
def headFails (p : Char → Bool) : List Char → Prop
  | [] => True
  | c :: _ => p c = false

/-- A well-formed owner or name path segment: non-empty and made of the
characters the resolver's regex accepts. -/
def validSeg (s : List Char) : Prop := s ≠ [] ∧ ∀ c ∈ s, isRepoChar c = true

/-- Characters allowed in the extra-path-segment noise of claim C8:
word characters and the segment separator. -/
def isNoiseChar (c : Char) : Bool := isWordChar c || c == '/'

/-- The canonical `https://host/owner/name` reference form. -/
def httpsForm (o n : List Char) : List Char :=
  "https://github.com/".toList ++ (o ++ '/' :: n)

/-- The scp-like `user@host:owner/name` reference form. -/
def scpForm (o n : List Char) : List Char :=
  "git@github.com:".toList ++ (o ++ '/' :: n)

/-- The bare `host/owner/name` reference form. -/
def bareForm (o n : List Char) : List Char :=
  "github.com/".toList ++ (o ++ '/' :: n)

/-! ### Event Sink: the WebSocket ConnectionManager -/

/-- The `try` block of `ConnectionManager.send_json` (`backend/main.py:112-117`):
look the client up in `active_connections` and send.  `raising` abstracts the
external `websocket.send_json` collaborator (`Except.error` models the send
raising); the unknown-client branch only prints a warning and falls through. -/
def send_json_try (conns : List String) (raising : String → Bool) (client_id : String) :
    Except Unit (List String) :=
  if conns.contains client_id then
    if raising client_id then Except.error () else Except.ok conns
  else
    Except.ok conns

/-- `ConnectionManager.send_json` (`backend/main.py:112-125`): on an exception
the client is removed from `active_connections` and `False` is returned;
every other path returns `True`.  Result: (new connection table, return value). -/
def send_json (conns : List String) (raising : String → Bool) (client_id : String) :
    List String × Bool :=
  match send_json_try conns raising client_id with
  | Except.ok conns' => (conns', true)
  | Except.error _ =>
      (if conns.contains client_id then conns.erase client_id else conns, false)

/-! ### Repository Registry (`src/repository_db.py`) -/

/-- One row of the `repositories` table. -/
structure RepoRecord where
  id : Nat
  name : String
  description : String
  repo : String
  repo_url : String
  repo_status : String
  tokens : Nat
  snippets : Nat
deriving DecidableEq, Repr

/-- The `repositories` table: rows plus the auto-increment counter. -/
structure Registry where
  rows : List RepoRecord
  nextId : Nat
deriving DecidableEq, Repr

/-- `add_repository` (`repository_db.py:126`): a plain `INSERT` appending a
fresh row; the schema exposes no uniqueness constraint on `repo`. -/
def add_repository (db : Registry) (name description repo repo_url repo_status : String)
    (tokens snippets : Nat) : Registry :=
  { rows := db.rows ++
      [{ id := db.nextId, name := name, description := description, repo := repo,
         repo_url := repo_url, repo_status := repo_status,
         tokens := tokens, snippets := snippets }],
    nextId := db.nextId + 1 }

/-- `get_repository_by_path` (`repository_db.py:96`): `SELECT ... WHERE repo = %s`
with `fetchone`, i.e. the first matching row. -/
def get_repository_by_path (db : Registry) (path : String) : Option RepoRecord :=
  db.rows.find? (fun r => r.repo == path)

/-- `get_repository_by_id` (`repository_db.py:244`). -/
def get_repository_by_id (db : Registry) (i : Nat) : Option RepoRecord :=
  db.rows.find? (fun r => r.id == i)

/-- `update_repository_status` (`repository_db.py:274`):
`UPDATE repositories SET repo_status = %s WHERE id = %s`. -/
def update_repository_status (db : Registry) (i : Nat) (st : String) : Registry :=
  { db with rows := db.rows.map (fun r => if r.id == i then { r with repo_status := st } else r) }

/-- Modelled from the spec: `updateCounters(id, tokens, snippets) -> bool`
(§4.2).  `update_repository_counts` is imported and called by the orchestrator
(`backend/main.py:31,651`) but its definition is missing from the sources;
per the spec it writes the two counters of the record with the given id. -/
def update_repository_counts (db : Registry) (i : Nat) (tokens snippets : Nat) : Registry :=
  { db with rows := db.rows.map (fun r =>
      if r.id == i then { r with tokens := tokens, snippets := snippets } else r) }

/-- `delete_repository` (`repository_db.py:191`):
`DELETE FROM repositories WHERE id = %s`. -/
def delete_repository (db : Registry) (i : Nat) : Registry :=
  { db with rows := db.rows.filter (fun r => !(r.id == i)) }

/-- `get_all_repositories` (`repository_db.py:37`); the `ORDER BY name` of the
source only permutes the rows and is dropped here. -/
def get_all_repositories (db : Registry) : List RepoRecord := db.rows

/-- `delete_vector_table` (`repository_db.py:218`): `DROP TABLE IF EXISTS` on
the name with `-` replaced by `_`; `dropOk` abstracts whether the external
database raises.  Result: (remaining tables, return value). -/
def delete_vector_table (tables : List String) (dropOk : Bool) (table_name : String) :
    List String × Bool :=
  if dropOk then
    (tables.filter (fun t => !(t == table_name.replace "-" "_")), true)
  else (tables, false)

/-- One observable action of the delete endpoint, in execution order. -/
inductive DeleteStep
  | dropTable (table : String)
  | deleteRecord (id : Nat)
deriving DecidableEq, Repr

/-- Outcome of the delete endpoint. -/
structure DeleteResult where
  db : Registry
  tables : List String
  table_name : String
  steps : List DeleteStep
deriving Repr

/-- `delete_repository_endpoint` (`backend/main.py:953`): look up the record,
derive the table name from its path (leading `/` stripped, `/` and `-`
replaced by `_`), attempt to drop the vector table (a failure is only logged),
then delete the record.  `none` models the 404 for a missing record. -/
def delete_repository_endpoint (db : Registry) (tables : List String) (dropOk : Bool)
    (repo_id : Nat) : Option DeleteResult :=
  match get_repository_by_id db repo_id with
  | none => none
  | some repository =>
    let rp0 := repository.repo
    let rp := if rp0.startsWith "/" then rp0.drop 1 else rp0
    let table_name := (rp.replace "/" "_").replace "-" "_"
    let dropRes := delete_vector_table tables dropOk table_name
    let db2 := delete_repository db repo_id
    some { db := db2, tables := dropRes.1, table_name := table_name,
           steps := [DeleteStep.dropTable table_name, DeleteStep.deleteRecord repo_id] }

/-! ### Ingestion orchestrator (`backend/main.py:450-816`) -/

/-- A progress/terminal event payload handed to the Event Sink at a
`manager.send_json` call site; the numeric progress fields of the payloads are
omitted, keeping the `type` / `status` / `message` fields the claims mention. -/
structure Event where
  type : String
  status : String
  message : String
deriving DecidableEq, Repr

/-- A registry write performed by the background job. -/
inductive RegOp
  | add (name description repo repo_url repo_status : String) (tokens snippets : Nat)
  | updStatus (id : Nat) (repo_status : String)
  | updCounts (id : Nat) (tokens snippets : Nat)
deriving DecidableEq, Repr

/-- Apply one registry write. -/
def applyOp (db : Registry) : RegOp → Registry
  | RegOp.add name description repo repo_url repo_status tokens snippets =>
      add_repository db name description repo repo_url repo_status tokens snippets
  | RegOp.updStatus i st => update_repository_status db i st
  | RegOp.updCounts i tok sn => update_repository_counts db i tok sn

/-- Orchestrator state threaded through the background job: the registry, the
ordered trace of registry writes, the emitted events, the Event Sink's
connection table, and whether the transient workspace was created/destroyed. -/
structure OrchState where
  db : Registry
  ops : List RegOp
  events : List Event
  conns : List String
  wsCreated : Bool
  wsDestroyed : Bool
deriving DecidableEq, Repr

/-- Perform one registry write, recording it in the op trace. -/
def doOp (s : OrchState) (op : RegOp) : OrchState :=
  { s with db := applyOp s.db op, ops := s.ops ++ [op] }

/-- State of one send site: orchestrator state plus the job-local `client_id`
and `websocket_connected` variables. -/
structure SendStep where
  st : OrchState
  cid : Option String
  ws : Bool
deriving DecidableEq, Repr

/-- One `if client_id and websocket_connected: ok = await manager.send_json(...);
if not ok: client_id = None` block of the orchestrator; the payload is logged
in emission order whenever the send is attempted. -/
def maybeSend (raising : String → Bool) (s : OrchState) (cid : Option String) (ws : Bool)
    (e : Event) : SendStep :=
  match cid with
  | none => { st := s, cid := none, ws := ws }
  | some c =>
    if ws then
      let r := send_json s.conns raising c
      { st := { s with events := s.events ++ [e], conns := r.1 },
        cid := if r.2 then some c else none, ws := r.2 }
    else { st := s, cid := some c, ws := ws }

/-- The sequence of `in_progress` callback deliveries of a stage. -/
def sendProgressFold (raising : String → Bool) (typ : String) (t : SendStep)
    (msgs : List String) : SendStep :=
  msgs.foldl (fun acc msg => maybeSend raising acc.st acc.cid acc.ws
    { type := typ, status := "in_progress", message := msg }) t

/-- `progress_callback=download_progress_callback if client_id else None`
(`backend/main.py:540`): the downloader's callbacks run only when a client id
was still set at the call. -/
def downloadCallbacks (raising : String → Bool) (t : SendStep) (msgs : List String) :
    SendStep :=
  match t.cid with
  | none => t
  | some _ => sendProgressFold raising "download" t msgs

/-- A loaded markdown document, reduced to the two quantities the counters
read: `len(doc.page_content.split())` and the `markdown-it` fenced-code-block
count of `count_code_blocks` (both external collaborators). -/
structure Doc where
  wordCount : Nat
  fenceCount : Nat
deriving DecidableEq, Repr

/-- `tokens_count = sum(len(doc.page_content.split()) for doc in documents)`
(`backend/main.py:643`). -/
def tokensCountOf (documents : List Doc) : Nat := (documents.map Doc.wordCount).sum

/-- `count_code_blocks_in_documents` (`backend/markdown_utils.py`): the sum of
per-document fenced-block counts. -/
def snippetsCountOf (documents : List Doc) : Nat := (documents.map Doc.fenceCount).sum

/-- Outcome of the fetch stage's external GitHub collaborators, one variant
per failure site of `download_md_files_with_progress`
(`backend/main.py:273-428`). -/
inductive FetchResult
  | parseError (msg : String)
  | noToken
  | initError (msg : String)
  | repoError (msg : String)
  | githubExc (msg : String)
  | otherExc (msg : String)
  | tree (md downloaded : List String)
deriving DecidableEq, Repr

/-- `download_md_files_with_progress`, reduced to its observable behaviour:
(progress-callback messages, returned file list).  Every failure branch
reports one error message through the callback and `return []`; a fetched
tree with no markdown files reports `仓库中未找到 Markdown 文件` and returns `[]`;
otherwise per-file progress is reported and the saved files are returned
(per-file failures are skipped, so `downloaded` may be any sublist of `md`). -/
def download_md_files (fr : FetchResult) : List String × List String :=
  match fr with
  | FetchResult.parseError msg => (["URL 格式错误: " ++ msg], [])
  | FetchResult.noToken => (["GitHub token not found in environment variables"], [])
  | FetchResult.initError msg => (["初始化 GitHub API 时出错: " ++ msg], [])
  | FetchResult.repoError msg => (["获取仓库时出错: " ++ msg], [])
  | FetchResult.githubExc msg => (["GitHub API error: " ++ msg], [])
  | FetchResult.otherExc msg => (["Error downloading markdown files: " ++ msg], [])
  | FetchResult.tree md downloaded =>
    if md.isEmpty then
      (["正在获取仓库内容...", "仓库中未找到 Markdown 文件"], [])
    else
      (["正在获取仓库内容...",
        "找到 " ++ toString md.length ++ " 个 Markdown 文件，开始下载..."]
        ++ downloaded.map (fun f => "已下载: " ++ f), downloaded)

/-- Outcome of the load+split collaborators (`load_markdown_files`,
`split_documents`): the loaded documents and the split chunks, or a raised
exception. -/
inductive LoadResult
  | docs (documents chunks : List Doc)
  | raises (msg : String)
deriving DecidableEq, Repr

/-- Outcome of the embed-and-store collaborator (`embed_and_store`). -/
inductive EmbedResult
  | ok
  | raises (msg : String)
deriving DecidableEq, Repr

/-- Python `str.title()` restricted to ASCII: uppercase a letter that follows
a non-letter, lowercase a letter that follows a letter. -/
def pyTitle : List Char → Bool → List Char
  | [], _ => []
  | c :: cs, prevAlpha =>
    (if c.isAlpha then (if prevAlpha then c.toLower else c.toUpper) else c)
      :: pyTitle cs c.isAlpha

/-- `repo.replace("-", " ").title()` (`backend/main.py:483,659`). -/
def displayNameOf (repo : List Char) : String :=
  String.mk (pyTitle (replChar '-' ' ' repo) false)

/-- `process_repository_background` (`backend/main.py:450-729`): the
background ingestion job.  External collaborator outcomes (`fetch`, `load`,
`embed`) and the per-client send behaviour (`raising`) are parameters; the
result is the final orchestrator state. -/
def process_repository_background (db0 : Registry) (conns0 : List String)
    (raising : String → Bool) (url : List Char) (library_name : Option String)
    (client_id : Option String) (fetch : FetchResult) (load : LoadResult)
    (embed : EmbedResult) : OrchState :=
  let s0 : OrchState := { db := db0, ops := [], events := [], conns := conns0,
                          wsCreated := false, wsDestroyed := false }
  match extract_org_repo url with
  | none =>
    match client_id with
    | none => s0
    | some c =>
      let r := send_json s0.conns raising c
      { s0 with
        events := s0.events ++ [⟨"error", "", "处理仓库时出错"⟩],
        conns := r.1 }
  | some (org, repo) =>
    let repo_path := String.mk (org ++ '/' :: repo)
    match get_repository_by_path db0 repo_path with
    | some _ => s0
    | none =>
      let table_name := (match library_name with
        | some l => l
        | none => String.mk (org ++ '_' :: repo)).replace "-" "_"
      let repo_name := displayNameOf repo
      let repo_url_full := String.mk ("https://github.com/".toList ++ org ++ '/' :: repo)
      let s1 := doOp s0 (RegOp.add repo_name "" repo_path repo_url_full "in_progress" 0 0)
      let repo_id := (get_repository_by_path s1.db repo_path).map RepoRecord.id
      let s2 := { s1 with wsCreated := true }
      let t0 := maybeSend raising s2 client_id true
        { type := "download", status := "started",
          message := "开始下载 " ++ repo_path ++ " 仓库..." }
      let dl := download_md_files fetch
      let t1 := downloadCallbacks raising t0 dl.1
      let md_files := dl.2
      if md_files.isEmpty then
        let t2 := maybeSend raising t1.st t1.cid t1.ws
          { type := "download", status := "error",
            message := "仓库中未找到 Markdown 文件" }
        let s3 := match repo_id with
          | some i => doOp t2.st (RegOp.updStatus i "failed")
          | none => t2.st
        { s3 with wsDestroyed := true }
      else
        let t2 := maybeSend raising t1.st t1.cid t1.ws
          { type := "download", status := "completed",
            message := "已下载 " ++ toString md_files.length ++ " 个 Markdown 文件" }
        match load with
        | LoadResult.raises msg =>
          match t2.cid with
          | none => t2.st
          | some c =>
            let r := send_json t2.st.conns raising c
            { t2.st with
              events := t2.st.events ++ [⟨"error", "", "处理仓库时出错: " ++ msg⟩],
              conns := r.1 }
        | LoadResult.docs documents chunks =>
          let t3 := maybeSend raising t2.st t2.cid t2.ws
            { type := "embedding", status := "started", message := "开始嵌入文档..." }
          let t4 := maybeSend raising t3.st t3.cid t3.ws
            { type := "embedding", status := "in_progress", message := "开始嵌入文档..." }
          match embed with
          | EmbedResult.ok =>
            let t5 := maybeSend raising t4.st t4.cid t4.ws
              { type := "embedding", status := "in_progress", message := "文档嵌入完成" }
            let t6 := maybeSend raising t5.st t5.cid t5.ws
              { type := "embedding", status := "completed",
                message := "成功嵌入 " ++ toString chunks.length ++ " 个文档到表 "
                  ++ table_name }
            let s4 := match repo_id with
              | some i =>
                doOp (doOp t6.st (RegOp.updStatus i "completed"))
                  (RegOp.updCounts i (tokensCountOf documents) (snippetsCountOf documents))
              | none => t6.st
            let s5 := doOp s4 (RegOp.add repo_name "" repo_path repo_url_full "completed"
              (tokensCountOf documents) (snippetsCountOf documents))
            let t7 := maybeSend raising s5 t6.cid t6.ws
              { type := "database", status := "completed",
                message := "已将仓库信息添加到数据库" }
            { t7.st with wsDestroyed := true }
          | EmbedResult.raises msg =>
            let t5 := maybeSend raising t4.st t4.cid t4.ws
              { type := "embedding", status := "in_progress",
                message := "嵌入文档时出错: " ++ msg }
            let t6 := maybeSend raising t5.st t5.cid t5.ws
              { type := "embedding", status := "error",
                message := "嵌入文档时出错: " ++ msg }
            let s4 := match repo_id with
              | some i => doOp t6.st (RegOp.updStatus i "failed")
              | none => t6.st
            { s4 with wsDestroyed := true }

/-- Response of the `/download/` admission endpoint. -/
structure DownloadResponse where
  status : String
  message : String
  table_name : String
  query_url : String
  repo_path : String
deriving DecidableEq, Repr

/-- `download_repository` (`backend/main.py:731-816`): the admission check.
Returns the response plus whether a background task was scheduled; `none`
models the HTTP 400 for an unparsable reference. -/
def download_repository (db : Registry) (url : List Char)
    (library_name : Option String) : Option (DownloadResponse × Bool) :=
  match extract_org_repo url with
  | none => none
  | some (org, repo) =>
    let repo_path := String.mk (org ++ '/' :: repo)
    let table_name := (match library_name with
      | some l => l
      | none => String.mk (org ++ '_' :: repo)).replace "-" "_"
    match get_repository_by_path db repo_path with
    | some existing =>
      let actual_table_name := (existing.repo.replace "/" "_").replace "-" "_"
      some ({ status := "exists",
              message := "This repository has already been submitted. Check "
                ++ existing.repo ++ " to see it.",
              table_name := actual_table_name,
              query_url := "http://localhost:3000/query?table=" ++ actual_table_name
                ++ "&repo_name=" ++ existing.name ++ "&repo_path=" ++ existing.repo,
              repo_path := existing.repo }, false)
    | none =>
      some ({ status := "accepted",
              message := "Repository processing started in background. You can continue using the application while the repository is being processed.",
              table_name := table_name,
              query_url := "http://localhost:3000/query?table=" ++ table_name
                ++ "&repo_name=" ++ displayNameOf repo ++ "&repo_path=" ++ repo_path,
              repo_path := repo_path }, true)

/-- One admission followed by the scheduled background task, if any: FastAPI
runs the background task after the response is produced. -/
def handle_download (db : Registry) (conns : List String) (raising : String → Bool)
    (url : List Char) (library_name : Option String) (client_id : Option String)
    (fetch : FetchResult) (load : LoadResult) (embed : EmbedResult) :
    Option (DownloadResponse × OrchState) :=
  match download_repository db url library_name with
  | none => none
  | some (resp, scheduled) =>
    if scheduled then
      some (resp, process_repository_background db conns raising url library_name
        client_id fetch load embed)
    else
      some (resp, { db := db, ops := [], events := [], conns := conns,
                    wsCreated := false, wsDestroyed := false })

/-- Number of registry rows holding a given path. -/
def countPath (db : Registry) (p : String) : Nat :=
  (db.rows.filter (fun r => r.repo == p)).length

/-- The last `download`-typed event of a run: the terminal event of the fetch
stage as seen by a subscriber. -/
def lastDownloadEvent (s : OrchState) : Option Event :=
  (s.events.filter (fun e => e.type == "download")).getLast?

/-- The upstream-failure variants of the fetch stage (claim C10): GitHub
authentication / rate-limit / access errors and any other exception, i.e.
every variant that is not a fetched tree. -/
def isUpstreamFailure : FetchResult → Prop
  | FetchResult.parseError _ => True
  | FetchResult.noToken => True
  | FetchResult.initError _ => True
  | FetchResult.repoError _ => True
  | FetchResult.githubExc _ => True
  | FetchResult.otherExc _ => True
  | FetchResult.tree _ _ => False

/-! ### Identity-resolver lemmas (for claim C8) -/

theorem dropLit_self (l s : List Char) : dropLit l (l ++ s) = some s := by
  induction l with
  | nil => rfl
  | cons c cs ih => simp [dropLit, ih]

theorem takeWhile_append_run (p : Char → Bool) (xs ys : List Char)
    (hx : ∀ c ∈ xs, p c = true) (hy : headFails p ys) :
    (xs ++ ys).takeWhile p = xs ∧ (xs ++ ys).dropWhile p = ys := by
  induction xs with
  | nil =>
    cases ys with
    | nil => exact ⟨rfl, rfl⟩
    | cons y l =>
      have hy' : p y = false := hy
      simp [List.takeWhile_cons, List.dropWhile_cons, hy']
  | cons x xs ih =>
    have hx1 : p x = true := hx x (by simp)
    have ih2 := ih (fun c hc => hx c (by simp [hc]))
    simp [List.takeWhile_cons, List.dropWhile_cons, hx1, ih2.1, ih2.2]

theorem matchRepoAt_canonical (sep : Char) (o n t : List Char)
    (hsep : sep = '/' ∨ sep = ':')
    (ho : o ≠ []) (ho2 : ∀ c ∈ o, isRepoChar c = true)
    (hn : n ≠ []) (hn2 : ∀ c ∈ n, isRepoChar c = true)
    (ht : headFails isRepoChar t) :
    matchRepoAt (githubLit ++ sep :: (o ++ '/' :: (n ++ t))) = some (o, n) := by
  have h1 := dropLit_self githubLit (sep :: (o ++ '/' :: (n ++ t)))
  have ho' := takeWhile_append_run isRepoChar o ('/' :: (n ++ t)) ho2 (by exact rfl)
  have hn' := takeWhile_append_run isRepoChar n t hn2 ht
  have hoe : o.isEmpty = false := by cases o with | nil => exact absurd rfl ho | cons a l => rfl
  have hne : n.isEmpty = false := by cases n with | nil => exact absurd rfl hn | cons a l => rfl
  rcases hsep with h | h <;> subst h <;>
    simp [matchRepoAt, h1, ho'.1, ho'.2, hn'.1, hoe, hne]

theorem searchRepo_step (c : Char) (cs : List Char) (h : matchRepoAt (c :: cs) = none) :
    searchRepo (c :: cs) = searchRepo cs := by
  simp [searchRepo, h]

theorem searchRepo_canonical (sep : Char) (o n t : List Char)
    (hsep : sep = '/' ∨ sep = ':')
    (ho : o ≠ []) (ho2 : ∀ c ∈ o, isRepoChar c = true)
    (hn : n ≠ []) (hn2 : ∀ c ∈ n, isRepoChar c = true)
    (ht : headFails isRepoChar t) :
    searchRepo (githubLit ++ sep :: (o ++ '/' :: (n ++ t))) = some (o, n) := by
  have h := matchRepoAt_canonical sep o n t hsep ho ho2 hn hn2 ht
  have hg : githubLit ++ sep :: (o ++ '/' :: (n ++ t))
      = 'g' :: ('i' :: 't' :: 'h' :: 'u' :: 'b' :: '.' :: 'c' :: 'o' :: 'm'
          :: (sep :: (o ++ '/' :: (n ++ t)))) := rfl
  rw [hg] at h ⊢
  simp [searchRepo, h]

/-- C7: the reference `"https://github.com/acme/widgets.git"` resolves to
`("acme", "widgets")`, and the derived storage identifier for it is
`"acme_widgets"`. -/
theorem c7_acme_widgets_resolution :
    extract_org_repo "https://github.com/acme/widgets.git".toList
      = some ("acme".toList, "widgets".toList)
    ∧ derivedTableName "acme".toList "widgets".toList = "acme_widgets".toList := by
  decide

theorem matchRepoAt_ne_g (c : Char) (cs : List Char) (h : (c == 'g') = false) :
    matchRepoAt (c :: cs) = none := by
  simp [matchRepoAt, githubLit, dropLit, h]

theorem searchRepo_skip (c : Char) (cs : List Char) (h : (c == 'g') = false) :
    searchRepo (c :: cs) = searchRepo cs :=
  searchRepo_step c cs (matchRepoAt_ne_g c cs h)

theorem searchRepo_httpsPre (o n t : List Char)
    (ho : o ≠ []) (ho2 : ∀ c ∈ o, isRepoChar c = true)
    (hn : n ≠ []) (hn2 : ∀ c ∈ n, isRepoChar c = true)
    (ht : headFails isRepoChar t) :
    searchRepo ("https://github.com/".toList ++ (o ++ '/' :: (n ++ t))) = some (o, n) := by
  have hg : "https://github.com/".toList ++ (o ++ '/' :: (n ++ t))
      = 'h' :: 't' :: 't' :: 'p' :: 's' :: ':' :: '/' :: '/'
          :: (githubLit ++ '/' :: (o ++ '/' :: (n ++ t))) := rfl
  rw [hg, searchRepo_skip 'h' _ (by decide), searchRepo_skip 't' _ (by decide),
      searchRepo_skip 't' _ (by decide), searchRepo_skip 'p' _ (by decide),
      searchRepo_skip 's' _ (by decide), searchRepo_skip ':' _ (by decide),
      searchRepo_skip '/' _ (by decide), searchRepo_skip '/' _ (by decide)]
  exact searchRepo_canonical '/' o n t (Or.inl rfl) ho ho2 hn hn2 ht

theorem searchRepo_scpPre (o n t : List Char)
    (ho : o ≠ []) (ho2 : ∀ c ∈ o, isRepoChar c = true)
    (hn : n ≠ []) (hn2 : ∀ c ∈ n, isRepoChar c = true)
    (ht : headFails isRepoChar t) :
    searchRepo ("git@github.com:".toList ++ (o ++ '/' :: (n ++ t))) = some (o, n) := by
  have hg : "git@github.com:".toList ++ (o ++ '/' :: (n ++ t))
      = 'g' :: 'i' :: 't' :: '@'
          :: (githubLit ++ ':' :: (o ++ '/' :: (n ++ t))) := rfl
  have h0 : matchRepoAt ('g' :: 'i' :: 't' :: '@'
      :: (githubLit ++ ':' :: (o ++ '/' :: (n ++ t)))) = none := rfl
  rw [hg, searchRepo_step _ _ h0, searchRepo_skip 'i' _ (by decide),
      searchRepo_skip 't' _ (by decide), searchRepo_skip '@' _ (by decide)]
  exact searchRepo_canonical ':' o n t (Or.inr rfl) ho ho2 hn hn2 ht

theorem searchRepo_barePre (o n t : List Char)
    (ho : o ≠ []) (ho2 : ∀ c ∈ o, isRepoChar c = true)
    (hn : n ≠ []) (hn2 : ∀ c ∈ n, isRepoChar c = true)
    (ht : headFails isRepoChar t) :
    searchRepo ("github.com/".toList ++ (o ++ '/' :: (n ++ t))) = some (o, n) :=
  searchRepo_canonical '/' o n t (Or.inl rfl) ho ho2 hn hn2 ht

theorem dropWhile_all_append (p : Char → Bool) (ws r : List Char)
    (hw : ∀ c ∈ ws, p c = true) :
    (ws ++ r).dropWhile p = r.dropWhile p := by
  induction ws with
  | nil => rfl
  | cons w wsl ih =>
    simp [List.dropWhile_cons, hw w (by simp), ih (fun c hc => hw c (by simp [hc]))]

theorem dropWhile_headFails (p : Char → Bool) (r : List Char) (hr : headFails p r) :
    r.dropWhile p = r := by
  cases r with
  | nil => rfl
  | cons c cs =>
    have hc : p c = false := hr
    simp [List.dropWhile_cons, hc]

theorem pyStrip_clean (ws s ws' : List Char)
    (hw : ∀ c ∈ ws, isPySpace c = true) (hw' : ∀ c ∈ ws', isPySpace c = true)
    (h1 : headFails isPySpace s) (h2 : headFails isPySpace s.reverse) :
    pyStrip (ws ++ s ++ ws') = s := by
  have hstep : (ws ++ s ++ ws').dropWhile isPySpace = (s ++ ws').dropWhile isPySpace := by
    rw [List.append_assoc]; exact dropWhile_all_append _ _ _ hw
  unfold pyStrip
  rw [hstep]
  cases s with
  | nil =>
    have hz : ws'.dropWhile isPySpace = [] := by
      have := dropWhile_all_append isPySpace ws' [] hw'
      simpa using this
    simp [hz]
  | cons c cs =>
    have hcc : ((c :: cs) ++ ws').dropWhile isPySpace = (c :: cs) ++ ws' :=
      dropWhile_headFails _ _ h1
    rw [hcc, List.reverse_append,
        dropWhile_all_append _ _ _ (fun x hx => hw' x (List.mem_reverse.mp hx)),
        dropWhile_headFails _ _ h2, List.reverse_reverse]

theorem pyStrip_clean0 (s : List Char)
    (h1 : headFails isPySpace s) (h2 : headFails isPySpace s.reverse) :
    pyStrip s = s := by
  have := pyStrip_clean [] s [] (by simp) (by simp) h1 h2
  simpa using this

theorem endsWithGit_append_git (s : List Char) :
    endsWithGit (s ++ ['.', 'g', 'i', 't']) = true := by
  unfold endsWithGit
  rw [List.reverse_append]
  rfl

theorem stripGitSuffix_append_git (s : List Char) :
    stripGitSuffix (s ++ ['.', 'g', 'i', 't']) = s := by
  simp [stripGitSuffix, endsWithGit_append_git, List.length_append, List.take_left]

theorem stripGitSuffix_no_git (s : List Char) (h : endsWithGit s = false) :
    stripGitSuffix s = s := by
  simp [stripGitSuffix, h]

theorem endsWithGit_slash_append (s n : List Char) (h : endsWithGit n = false) :
    endsWithGit (s ++ '/' :: n) = false := by
  have hrev : (s ++ '/' :: n).reverse = n.reverse ++ '/' :: s.reverse := by
    rw [List.reverse_append, List.reverse_cons, List.append_assoc, List.singleton_append]
  unfold endsWithGit at h ⊢
  rw [hrev]
  rcases hm : n.reverse with _ | ⟨a, _ | ⟨b, _ | ⟨c, _ | ⟨d, m⟩⟩⟩⟩
  · rfl
  · show ((a == 't') && false) = false
    simp
  · show ((a == 't') && ((b == 'i') && false)) = false
    simp
  · show ((a == 't') && ((b == 'i') && ((c == 'g') && false))) = false
    simp
  · rw [hm] at h
    exact h

theorem endsWithGit_all_chars (noise : List Char)
    (h : ∀ c ∈ noise, isNoiseChar c = true) :
    endsWithGit noise = false := by
  by_contra hb
  rw [Bool.not_eq_false] at hb
  unfold endsWithGit at hb
  have heq : noise.reverse.take 4 = ['t', 'i', 'g', '.'] := eq_of_beq hb
  have hdot : '.' ∈ noise.reverse.take 4 := by rw [heq]; simp
  have hmem : '.' ∈ noise := List.mem_reverse.mp (List.mem_of_mem_take hdot)
  exact absurd (h '.' hmem) (by decide)

theorem repoChar_not_space (c : Char) (h : isRepoChar c = true) : isPySpace c = false := by
  by_contra hb
  rw [Bool.not_eq_false] at hb
  simp only [isPySpace, Bool.or_eq_true, beq_iff_eq] at hb
  rcases hb with ((((rfl | rfl) | rfl) | rfl) | rfl) | rfl <;> exact absurd h (by decide)

theorem noiseChar_not_space (c : Char) (h : isNoiseChar c = true) : isPySpace c = false := by
  by_contra hb
  rw [Bool.not_eq_false] at hb
  simp only [isPySpace, Bool.or_eq_true, beq_iff_eq] at hb
  rcases hb with ((((rfl | rfl) | rfl) | rfl) | rfl) | rfl <;> exact absurd h (by decide)

theorem headFails_reverse_append (p : Char → Bool) (s nt : List Char) (hne : nt ≠ [])
    (h : ∀ c ∈ nt, p c = false) : headFails p (s ++ nt).reverse := by
  rcases hr : nt.reverse with _ | ⟨a, l⟩
  · exact absurd (List.reverse_eq_nil_iff.mp hr) hne
  · rw [List.reverse_append, hr]
    have ha : a ∈ nt := by
      rw [← List.mem_reverse, hr]; simp
    exact h a ha

theorem parseCore_of_search (u o n : List Char) (h : searchRepo u = some (o, n)) :
    parseCore u = some (o ++ '/' :: n) := by
  simp [parseCore, h]

theorem parse_github_url_eq (url o n : List Char)
    (h : searchRepo (stripGitSuffix (pyStrip url)) = some (o, n)) :
    parse_github_url url = some (o ++ '/' :: n) := by
  unfold parse_github_url
  exact parseCore_of_search _ _ _ h

theorem splitOn_owner_name (o n : List Char)
    (ho2 : ∀ c ∈ o, isRepoChar c = true) (hn2 : ∀ c ∈ n, isRepoChar c = true) :
    (o ++ '/' :: n).splitOn '/' = [o, n] := by
  have h1 : ∀ x ∈ o, ¬((x == '/') = true) := by
    intro x hx hcc
    have hx' := ho2 x hx
    rw [eq_of_beq hcc] at hx'
    exact absurd hx' (by decide)
  have h2 : ∀ x ∈ n, ¬((x == '/') = true) := by
    intro x hx hcc
    have hx' := hn2 x hx
    rw [eq_of_beq hcc] at hx'
    exact absurd hx' (by decide)
  show (o ++ '/' :: n).splitOnP (· == '/') = [o, n]
  rw [List.splitOnP_first _ _ h1 '/' (by decide) n, List.splitOnP_eq_single _ _ h2]

theorem extract_of_parse (url o n : List Char)
    (ho2 : ∀ c ∈ o, isRepoChar c = true) (hn2 : ∀ c ∈ n, isRepoChar c = true)
    (h : parse_github_url url = some (o ++ '/' :: n)) :
    extract_org_repo url = some (o, n) := by
  simp [extract_org_repo, h, splitOn_owner_name o n ho2 hn2]

theorem parse_form_general (base o n t ws ws' : List Char)
    (hsearch : searchRepo (base ++ (o ++ '/' :: (n ++ t))) = some (o, n))
    (hhead : headFails isPySpace (base ++ (o ++ '/' :: (n ++ t))))
    (hn : n ≠ []) (hn2 : ∀ c ∈ n, isRepoChar c = true)
    (htsp : ∀ c ∈ t, isPySpace c = false)
    (hgit : endsWithGit (n ++ t) = false)
    (hws : ∀ c ∈ ws, isPySpace c = true) (hws' : ∀ c ∈ ws', isPySpace c = true) :
    parse_github_url (ws ++ (base ++ (o ++ '/' :: (n ++ t))) ++ ws')
      = some (o ++ '/' :: n) := by
  have hshape : base ++ (o ++ '/' :: (n ++ t)) = (base ++ o) ++ '/' :: (n ++ t) := by
    simp [List.append_assoc]
  have hntne : n ++ t ≠ [] := by
    intro hnil
    exact hn (List.append_eq_nil.mp hnil).1
  have hrev : headFails isPySpace (base ++ (o ++ '/' :: (n ++ t))).reverse := by
    have hshape2 : base ++ (o ++ '/' :: (n ++ t)) = (base ++ o ++ ['/']) ++ (n ++ t) := by
      simp [List.append_assoc]
    rw [hshape2]
    refine headFails_reverse_append _ _ _ hntne ?_
    intro c hc
    rcases List.mem_append.mp hc with hcn | hct
    · exact repoChar_not_space c (hn2 c hcn)
    · exact htsp c hct
  have hstrip : pyStrip (ws ++ (base ++ (o ++ '/' :: (n ++ t))) ++ ws')
      = base ++ (o ++ '/' :: (n ++ t)) :=
    pyStrip_clean _ _ _ hws hws' hhead hrev
  have hnogit : endsWithGit (base ++ (o ++ '/' :: (n ++ t))) = false := by
    rw [hshape]
    exact endsWithGit_slash_append _ _ hgit
  exact parse_github_url_eq _ _ _
    (by rw [hstrip, stripGitSuffix_no_git _ hnogit]; exact hsearch)

theorem parse_base_git (base o n : List Char)
    (hhead : headFails isPySpace (base ++ ['.', 'g', 'i', 't']))
    (hsearch : searchRepo base = some (o, n)) :
    parse_github_url (base ++ ['.', 'g', 'i', 't']) = some (o ++ '/' :: n) := by
  have hrev : headFails isPySpace (base ++ ['.', 'g', 'i', 't']).reverse := by
    rw [List.reverse_append]
    exact rfl
  have h1 : pyStrip (base ++ ['.', 'g', 'i', 't']) = base ++ ['.', 'g', 'i', 't'] :=
    pyStrip_clean0 _ hhead hrev
  have h2 : stripGitSuffix (base ++ ['.', 'g', 'i', 't']) = base :=
    stripGitSuffix_append_git base
  exact parse_github_url_eq _ _ _ (by rw [h1, h2]; exact hsearch)

/-- C8: for every valid reference string in the supported URL forms (https,
scp-like, bare `host/owner/name`), the Identity Resolver returns the same
`(owner, name)` pair when the input is varied by appending a trailing `.git`,
adding leading or trailing whitespace, or appending extra path segments after
`owner/name`. -/
theorem c8_resolver_invariance (o n ws ws' noise : List Char)
    (ho : validSeg o) (hn : validSeg n) (hngit : endsWithGit n = false)
    (hws : ∀ c ∈ ws, isPySpace c = true) (hws' : ∀ c ∈ ws', isPySpace c = true)
    (hnoise : ∀ c ∈ noise, isNoiseChar c = true) :
    ∀ f ∈ [httpsForm o n, scpForm o n, bareForm o n],
      extract_org_repo f = some (o, n)
      ∧ extract_org_repo (f ++ ".git".toList) = some (o, n)
      ∧ extract_org_repo (ws ++ f ++ ws') = some (o, n)
      ∧ extract_org_repo (f ++ '/' :: noise) = some (o, n) := by
  obtain ⟨ho1, ho2⟩ := ho
  obtain ⟨hn1, hn2⟩ := hn
  have htnil : headFails isRepoChar ([] : List Char) := trivial
  have htnoise : headFails isRepoChar ('/' :: noise) := rfl
  have htspnil : ∀ c ∈ ([] : List Char), isPySpace c = false := by
    intro c hc; cases hc
  have htspnoise : ∀ c ∈ '/' :: noise, isPySpace c = false := by
    intro c hc
    rcases List.mem_cons.mp hc with rfl | hcm
    · decide
    · exact noiseChar_not_space c (hnoise c hcm)
  have hgitnil : endsWithGit (n ++ []) = false := by simpa using hngit
  have hgitnoise : endsWithGit (n ++ '/' :: noise) = false :=
    endsWithGit_slash_append n noise (endsWithGit_all_chars noise hnoise)
  have assemble : ∀ f, parse_github_url f = some (o ++ '/' :: n) →
      extract_org_repo f = some (o, n) :=
    fun f h => extract_of_parse f o n ho2 hn2 h
  -- https form
  have hs1 : ∀ t, headFails isRepoChar t →
      searchRepo ("https://github.com/".toList ++ (o ++ '/' :: (n ++ t))) = some (o, n) :=
    fun t ht => searchRepo_httpsPre o n t ho1 ho2 hn1 hn2 ht
  have hsb1 : searchRepo ("https://github.com/".toList ++ (o ++ '/' :: n)) = some (o, n) := by
    have := hs1 [] htnil; simpa using this
  have hp1base : parse_github_url (httpsForm o n) = some (o ++ '/' :: n) := by
    have := parse_form_general ("https://github.com/".toList) o n [] [] []
      (hs1 [] htnil) rfl hn1 hn2 htspnil hgitnil (by simp) (by simp)
    simpa [httpsForm] using this
  have hp1git : parse_github_url (httpsForm o n ++ ".git".toList) = some (o ++ '/' :: n) := by
    have := parse_base_git ("https://github.com/".toList ++ (o ++ '/' :: n)) o n rfl hsb1
    simpa [httpsForm] using this
  have hp1ws : parse_github_url (ws ++ httpsForm o n ++ ws') = some (o ++ '/' :: n) := by
    have := parse_form_general ("https://github.com/".toList) o n [] ws ws'
      (hs1 [] htnil) rfl hn1 hn2 htspnil hgitnil hws hws'
    simpa [httpsForm] using this
  have hp1noise : parse_github_url (httpsForm o n ++ '/' :: noise) = some (o ++ '/' :: n) := by
    have := parse_form_general ("https://github.com/".toList) o n ('/' :: noise) [] []
      (hs1 _ htnoise) rfl hn1 hn2 htspnoise hgitnoise (by simp) (by simp)
    simpa [httpsForm, List.append_assoc] using this
  -- scp form
  have hs2 : ∀ t, headFails isRepoChar t →
      searchRepo ("git@github.com:".toList ++ (o ++ '/' :: (n ++ t))) = some (o, n) :=
    fun t ht => searchRepo_scpPre o n t ho1 ho2 hn1 hn2 ht
  have hsb2 : searchRepo ("git@github.com:".toList ++ (o ++ '/' :: n)) = some (o, n) := by
    have := hs2 [] htnil; simpa using this
  have hp2base : parse_github_url (scpForm o n) = some (o ++ '/' :: n) := by
    have := parse_form_general ("git@github.com:".toList) o n [] [] []
      (hs2 [] htnil) rfl hn1 hn2 htspnil hgitnil (by simp) (by simp)
    simpa [scpForm] using this
  have hp2git : parse_github_url (scpForm o n ++ ".git".toList) = some (o ++ '/' :: n) := by
    have := parse_base_git ("git@github.com:".toList ++ (o ++ '/' :: n)) o n rfl hsb2
    simpa [scpForm] using this
  have hp2ws : parse_github_url (ws ++ scpForm o n ++ ws') = some (o ++ '/' :: n) := by
    have := parse_form_general ("git@github.com:".toList) o n [] ws ws'
      (hs2 [] htnil) rfl hn1 hn2 htspnil hgitnil hws hws'
    simpa [scpForm] using this
  have hp2noise : parse_github_url (scpForm o n ++ '/' :: noise) = some (o ++ '/' :: n) := by
    have := parse_form_general ("git@github.com:".toList) o n ('/' :: noise) [] []
      (hs2 _ htnoise) rfl hn1 hn2 htspnoise hgitnoise (by simp) (by simp)
    simpa [scpForm, List.append_assoc] using this
  -- bare form
  have hs3 : ∀ t, headFails isRepoChar t →
      searchRepo ("github.com/".toList ++ (o ++ '/' :: (n ++ t))) = some (o, n) :=
    fun t ht => searchRepo_barePre o n t ho1 ho2 hn1 hn2 ht
  have hsb3 : searchRepo ("github.com/".toList ++ (o ++ '/' :: n)) = some (o, n) := by
    have := hs3 [] htnil; simpa using this
  have hp3base : parse_github_url (bareForm o n) = some (o ++ '/' :: n) := by
    have := parse_form_general ("github.com/".toList) o n [] [] []
      (hs3 [] htnil) rfl hn1 hn2 htspnil hgitnil (by simp) (by simp)
    simpa [bareForm] using this
  have hp3git : parse_github_url (bareForm o n ++ ".git".toList) = some (o ++ '/' :: n) := by
    have := parse_base_git ("github.com/".toList ++ (o ++ '/' :: n)) o n rfl hsb3
    simpa [bareForm] using this
  have hp3ws : parse_github_url (ws ++ bareForm o n ++ ws') = some (o ++ '/' :: n) := by
    have := parse_form_general ("github.com/".toList) o n [] ws ws'
      (hs3 [] htnil) rfl hn1 hn2 htspnil hgitnil hws hws'
    simpa [bareForm] using this
  have hp3noise : parse_github_url (bareForm o n ++ '/' :: noise) = some (o ++ '/' :: n) := by
    have := parse_form_general ("github.com/".toList) o n ('/' :: noise) [] []
      (hs3 _ htnoise) rfl hn1 hn2 htspnoise hgitnoise (by simp) (by simp)
    simpa [bareForm, List.append_assoc] using this
  intro f hf
  simp only [List.mem_cons, List.not_mem_nil, or_false] at hf
  rcases hf with rfl | rfl | rfl
  · exact ⟨assemble _ hp1base, assemble _ hp1git, assemble _ hp1ws, assemble _ hp1noise⟩
  · exact ⟨assemble _ hp2base, assemble _ hp2git, assemble _ hp2ws, assemble _ hp2noise⟩
  · exact ⟨assemble _ hp3base, assemble _ hp3git, assemble _ hp3ws, assemble _ hp3noise⟩

/-- Witness for C8 at the concrete reference `acme/widgets` with whitespace
`" "`, noise `"tree/main"`, and the scp-like form, all hypotheses discharged
by evaluation. -/
theorem c8_resolver_invariance_witness :
    extract_org_repo (scpForm "acme".toList "widgets".toList ++ ".git".toList)
      = some ("acme".toList, "widgets".toList)
    ∧ extract_org_repo (" ".toList ++ httpsForm "acme".toList "widgets".toList ++ " ".toList)
      = some ("acme".toList, "widgets".toList)
    ∧ extract_org_repo (bareForm "acme".toList "widgets".toList ++ '/' :: "tree/main".toList)
      = some ("acme".toList, "widgets".toList) := by
  have h := c8_resolver_invariance "acme".toList "widgets".toList
    " ".toList " ".toList "tree/main".toList
    (by constructor <;> decide) (by constructor <;> decide) (by decide)
    (by decide) (by decide) (by decide)
  exact ⟨(h _ (by simp)).2.1, (h _ (by simp)).2.2.1, (h _ (by simp)).2.2.2⟩

/-- C5 counterexample: delivering to a subscriber key that is not registered
in the active-connection table returns `true`, not `false`: the unknown-client
branch of `send_json` only prints a warning and then falls through to
`return True`. -/
theorem c5_unknown_subscriber_counterexample :
    (send_json [] (fun _ => false) "client-1").2 = true := rfl

/-- C5 (amended): `send_json` is total (the send exception is caught, nothing
propagates); delivery to a subscriber key with no active connection returns
`true` and leaves the table unchanged (only a warning is logged); a delivery
whose underlying send raises deregisters the subscriber and returns `false`
rather than propagating the error. -/
theorem c5_send_json_amended (conns : List String) (raising : String → Bool)
    (client_id : String) :
    (conns.contains client_id = false →
      send_json conns raising client_id = (conns, true))
    ∧ (conns.contains client_id = true → raising client_id = true →
      send_json conns raising client_id = (conns.erase client_id, false)) := by
  constructor
  · intro h
    simp only [send_json, send_json_try, h]
    simp
  · intro h hr
    simp only [send_json, send_json_try, h, hr]
    simp

/-- Witness for C5 (amended) at concrete inputs: an unknown subscriber on an
empty table, and a registered subscriber whose socket raises. -/
theorem c5_send_json_amended_witness :
    send_json [] (fun _ => false) "client-1" = ([], true)
    ∧ send_json ["client-1"] (fun _ => true) "client-1" = ([], false) := by
  constructor
  · exact (c5_send_json_amended [] (fun _ => false) "client-1").1 (by decide)
  · have h := (c5_send_json_amended ["client-1"] (fun _ => true) "client-1").2 (by decide) rfl
    simpa using h

/-- C9: deleting an existing Registry record first attempts to drop the
derived table named by the record's path with `/` and `-` replaced by `_`, and
then deletes the record itself; the record deletion proceeds for every drop
outcome (`dropOk` is universally quantified, so in particular when the drop
fails), and the deleted record appears in no list-all or get-by-path result
afterwards. -/
theorem c9_delete_repository_endpoint (db : Registry) (tables : List String)
    (dropOk : Bool) (repo_id : Nat) (rec : RepoRecord)
    (hrec : get_repository_by_id db repo_id = some rec) :
    ∃ res, delete_repository_endpoint db tables dropOk repo_id = some res
      ∧ res.table_name
          = ((if rec.repo.startsWith "/" then rec.repo.drop 1 else rec.repo).replace
              "/" "_").replace "-" "_"
      ∧ res.steps = [DeleteStep.dropTable res.table_name, DeleteStep.deleteRecord repo_id]
      ∧ (∀ r ∈ get_all_repositories res.db, r.id ≠ repo_id)
      ∧ (∀ p r, get_repository_by_path res.db p = some r → r.id ≠ repo_id) := by
  refine ⟨{ db := delete_repository db repo_id,
            tables := (delete_vector_table tables dropOk
              (((if rec.repo.startsWith "/" then rec.repo.drop 1 else rec.repo).replace
                "/" "_").replace "-" "_")).1,
            table_name := ((if rec.repo.startsWith "/" then rec.repo.drop 1
              else rec.repo).replace "/" "_").replace "-" "_",
            steps := [DeleteStep.dropTable
                (((if rec.repo.startsWith "/" then rec.repo.drop 1 else rec.repo).replace
                  "/" "_").replace "-" "_"),
              DeleteStep.deleteRecord repo_id] }, ?_, rfl, rfl, ?_, ?_⟩
  · simp [delete_repository_endpoint, hrec]
  · intro r hr
    have hm := List.mem_filter.mp hr
    simpa using hm.2
  · intro p r hfind
    have hmem := List.mem_of_find?_eq_some hfind
    have hm := List.mem_filter.mp hmem
    simpa using hm.2

/-- Witness for C9: a one-record registry, record id 1 at path `acme/widgets`,
with the external table drop failing (`dropOk = false`); the record is still
deleted. -/
theorem c9_delete_repository_endpoint_witness :
    ∃ res, delete_repository_endpoint
        ⟨[⟨1, "Widgets", "", "acme/widgets", "https://github.com/acme/widgets",
           "completed", 5, 2⟩], 2⟩ ["acme_widgets"] false 1 = some res
      ∧ ∀ r ∈ get_all_repositories res.db, r.id ≠ 1 := by
  obtain ⟨res, h1, _, _, h4, _⟩ :=
    c9_delete_repository_endpoint
      ⟨[⟨1, "Widgets", "", "acme/widgets", "https://github.com/acme/widgets",
         "completed", 5, 2⟩], 2⟩ ["acme_widgets"] false 1
      ⟨1, "Widgets", "", "acme/widgets", "https://github.com/acme/widgets",
       "completed", 5, 2⟩ (by decide)
  exact ⟨res, h1, h4⟩

/-- C1 (code bug): a single successful ingestion of a fresh repository leaves
TWO registry rows with path `acme/widgets`: the row created at admission
(updated to `completed`) and the second row inserted by the success path
(`backend/main.py:656-667`), so the at-most-one-record-per-path invariant is
violated by the orchestrator itself. -/
theorem c1_duplicate_rows_after_success :
    countPath (process_repository_background ⟨[], 1⟩ [] (fun _ => false)
        "https://github.com/acme/widgets".toList none none
        (FetchResult.tree ["README.md"] ["README.md"])
        (LoadResult.docs [⟨10, 2⟩] [⟨6, 1⟩, ⟨4, 1⟩])
        EmbedResult.ok).db "acme/widgets" = 2 := by
  decide

/-- C6 (code bug): a job whose load/split stage raises (after a successful
fetch) terminates through the outer exception handler (`backend/main.py:723`),
which does not remove the temporary directory: the workspace was created but
is never destroyed on this exit path. -/
theorem c6_workspace_leak_on_load_error :
    (process_repository_background ⟨[], 1⟩ [] (fun _ => false)
        "https://github.com/acme/widgets".toList none none
        (FetchResult.tree ["README.md"] ["README.md"])
        (LoadResult.raises "split failed") EmbedResult.ok).wsCreated = true
    ∧ (process_repository_background ⟨[], 1⟩ [] (fun _ => false)
        "https://github.com/acme/widgets".toList none none
        (FetchResult.tree ["README.md"] ["README.md"])
        (LoadResult.raises "split failed") EmbedResult.ok).wsDestroyed = false := by
  constructor <;> decide

/-! ### Registry and send-step lemmas for the orchestrator claims -/

theorem get_by_path_add_fresh (db : Registry) (nm ds rp uf st : String) (tok sn : Nat)
    (h : get_repository_by_path db rp = none) :
    get_repository_by_path (add_repository db nm ds rp uf st tok sn)
      rp = some ⟨db.nextId, nm, ds, rp, uf, st, tok, sn⟩ := by
  unfold get_repository_by_path at h ⊢
  unfold add_repository
  rw [List.find?_append, h]
  simp

theorem get_by_path_updStatus (db : Registry) (i : Nat) (st rp : String) :
    get_repository_by_path (update_repository_status db i st) rp
      = (get_repository_by_path db rp).map
          (fun r => if r.id == i then { r with repo_status := st } else r) := by
  unfold get_repository_by_path update_repository_status
  have hp : ((fun r : RepoRecord => r.repo == rp)
        ∘ (fun r => if r.id == i then { r with repo_status := st } else r))
      = (fun r : RepoRecord => r.repo == rp) := by
    funext r
    by_cases h : r.id == i <;> simp [h, Function.comp]
  rw [List.find?_map, hp]

theorem get_by_path_updCounts (db : Registry) (i : Nat) (tok sn : Nat) (rp : String) :
    get_repository_by_path (update_repository_counts db i tok sn) rp
      = (get_repository_by_path db rp).map
          (fun r => if r.id == i then { r with tokens := tok, snippets := sn } else r) := by
  unfold get_repository_by_path update_repository_counts
  have hp : ((fun r : RepoRecord => r.repo == rp)
        ∘ (fun r => if r.id == i then { r with tokens := tok, snippets := sn } else r))
      = (fun r : RepoRecord => r.repo == rp) := by
    funext r
    by_cases h : r.id == i <;> simp [h, Function.comp]
  rw [List.find?_map, hp]

@[simp] theorem maybeSend_st_db (raising : String → Bool) (s : OrchState)
    (cid : Option String) (ws : Bool) (e : Event) :
    (maybeSend raising s cid ws e).st.db = s.db := by
  cases cid <;> cases ws <;> simp [maybeSend]

@[simp] theorem maybeSend_st_ops (raising : String → Bool) (s : OrchState)
    (cid : Option String) (ws : Bool) (e : Event) :
    (maybeSend raising s cid ws e).st.ops = s.ops := by
  cases cid <;> cases ws <;> simp [maybeSend]

@[simp] theorem maybeSend_st_wsCreated (raising : String → Bool) (s : OrchState)
    (cid : Option String) (ws : Bool) (e : Event) :
    (maybeSend raising s cid ws e).st.wsCreated = s.wsCreated := by
  cases cid <;> cases ws <;> simp [maybeSend]

@[simp] theorem maybeSend_st_wsDestroyed (raising : String → Bool) (s : OrchState)
    (cid : Option String) (ws : Bool) (e : Event) :
    (maybeSend raising s cid ws e).st.wsDestroyed = s.wsDestroyed := by
  cases cid <;> cases ws <;> simp [maybeSend]

@[simp] theorem sendProgressFold_st_db (raising : String → Bool) (typ : String)
    (msgs : List String) (t : SendStep) :
    (sendProgressFold raising typ t msgs).st.db = t.st.db := by
  induction msgs generalizing t with
  | nil => rfl
  | cons m ms ih =>
    show (sendProgressFold raising typ
      (maybeSend raising t.st t.cid t.ws ⟨typ, "in_progress", m⟩) ms).st.db = t.st.db
    rw [ih, maybeSend_st_db]

@[simp] theorem sendProgressFold_st_ops (raising : String → Bool) (typ : String)
    (msgs : List String) (t : SendStep) :
    (sendProgressFold raising typ t msgs).st.ops = t.st.ops := by
  induction msgs generalizing t with
  | nil => rfl
  | cons m ms ih =>
    show (sendProgressFold raising typ
      (maybeSend raising t.st t.cid t.ws ⟨typ, "in_progress", m⟩) ms).st.ops = t.st.ops
    rw [ih, maybeSend_st_ops]

@[simp] theorem sendProgressFold_st_wsCreated (raising : String → Bool) (typ : String)
    (msgs : List String) (t : SendStep) :
    (sendProgressFold raising typ t msgs).st.wsCreated = t.st.wsCreated := by
  induction msgs generalizing t with
  | nil => rfl
  | cons m ms ih =>
    show (sendProgressFold raising typ
      (maybeSend raising t.st t.cid t.ws ⟨typ, "in_progress", m⟩) ms).st.wsCreated
      = t.st.wsCreated
    rw [ih, maybeSend_st_wsCreated]

@[simp] theorem sendProgressFold_st_wsDestroyed (raising : String → Bool) (typ : String)
    (msgs : List String) (t : SendStep) :
    (sendProgressFold raising typ t msgs).st.wsDestroyed = t.st.wsDestroyed := by
  induction msgs generalizing t with
  | nil => rfl
  | cons m ms ih =>
    show (sendProgressFold raising typ
      (maybeSend raising t.st t.cid t.ws ⟨typ, "in_progress", m⟩) ms).st.wsDestroyed
      = t.st.wsDestroyed
    rw [ih, maybeSend_st_wsDestroyed]

@[simp] theorem downloadCallbacks_st_db (raising : String → Bool) (t : SendStep)
    (msgs : List String) : (downloadCallbacks raising t msgs).st.db = t.st.db := by
  cases h : t.cid <;> simp [downloadCallbacks, h]

@[simp] theorem downloadCallbacks_st_ops (raising : String → Bool) (t : SendStep)
    (msgs : List String) : (downloadCallbacks raising t msgs).st.ops = t.st.ops := by
  cases h : t.cid <;> simp [downloadCallbacks, h]

@[simp] theorem downloadCallbacks_st_wsCreated (raising : String → Bool) (t : SendStep)
    (msgs : List String) :
    (downloadCallbacks raising t msgs).st.wsCreated = t.st.wsCreated := by
  cases h : t.cid <;> simp [downloadCallbacks, h]

@[simp] theorem downloadCallbacks_st_wsDestroyed (raising : String → Bool) (t : SendStep)
    (msgs : List String) :
    (downloadCallbacks raising t msgs).st.wsDestroyed = t.st.wsDestroyed := by
  cases h : t.cid <;> simp [downloadCallbacks, h]

theorem send_json_ok (conns : List String) (raising : String → Bool) (c : String)
    (h : raising c = false) : send_json conns raising c = (conns, true) := by
  simp [send_json, send_json_try, h]

theorem maybeSend_ok (raising : String → Bool) (s : OrchState) (c : String) (e : Event)
    (h : raising c = false) :
    maybeSend raising s (some c) true e
      = ⟨{ s with events := s.events ++ [e] }, some c, true⟩ := by
  simp [maybeSend, send_json_ok _ _ _ h]

theorem sendProgressFold_ok (raising : String → Bool) (typ : String) (c : String)
    (h : raising c = false) (msgs : List String) (s : OrchState) :
    sendProgressFold raising typ ⟨s, some c, true⟩ msgs
      = ⟨{ s with events := s.events
            ++ msgs.map (fun m => ⟨typ, "in_progress", m⟩) }, some c, true⟩ := by
  induction msgs generalizing s with
  | nil => simp [sendProgressFold]
  | cons m ms ih =>
    have h1 : sendProgressFold raising typ ⟨s, some c, true⟩ (m :: ms)
        = sendProgressFold raising typ
            (maybeSend raising s (some c) true ⟨typ, "in_progress", m⟩) ms := rfl
    rw [h1, maybeSend_ok raising s c _ h, ih]
    simp

theorem downloadCallbacks_ok (raising : String → Bool) (c : String)
    (h : raising c = false) (msgs : List String) (s : OrchState) :
    downloadCallbacks raising ⟨s, some c, true⟩ msgs
      = ⟨{ s with events := s.events
            ++ msgs.map (fun m => ⟨"download", "in_progress", m⟩) }, some c, true⟩ := by
  show sendProgressFold raising "download" ⟨s, some c, true⟩ msgs = _
  exact sendProgressFold_ok raising "download" c h msgs s

theorem run_zero_files_shape (db0 : Registry) (conns0 : List String)
    (raising : String → Bool) (url : List Char) (library_name : Option String)
    (c : String) (org repo : List Char) (fetch : FetchResult) (load : LoadResult)
    (embed : EmbedResult)
    (hparse : extract_org_repo url = some (org, repo))
    (hfresh : get_repository_by_path db0 (String.mk (org ++ '/' :: repo)) = none)
    (hzero : (download_md_files fetch).2 = [])
    (hconn : raising c = false) :
    process_repository_background db0 conns0 raising url library_name (some c)
        fetch load embed
      = { db := update_repository_status
            (add_repository db0 (displayNameOf repo) "" (String.mk (org ++ '/' :: repo))
              (String.mk ("https://github.com/".toList ++ org ++ '/' :: repo))
              "in_progress" 0 0) db0.nextId "failed",
          ops := [RegOp.add (displayNameOf repo) "" (String.mk (org ++ '/' :: repo))
              (String.mk ("https://github.com/".toList ++ org ++ '/' :: repo))
              "in_progress" 0 0,
            RegOp.updStatus db0.nextId "failed"],
          events := ⟨"download", "started",
              "开始下载 " ++ String.mk (org ++ '/' :: repo) ++ " 仓库..."⟩
            :: ((download_md_files fetch).1.map
                  (fun m => ⟨"download", "in_progress", m⟩)
              ++ [⟨"download", "error", "仓库中未找到 Markdown 文件"⟩]),
          conns := conns0,
          wsCreated := true, wsDestroyed := true } := by
  have hadd := get_by_path_add_fresh db0 (displayNameOf repo) ""
    (String.mk (org ++ '/' :: repo))
    (String.mk ("https://github.com/".toList ++ org ++ '/' :: repo))
    "in_progress" 0 0 hfresh
  simp only [process_repository_background, hparse, hfresh, maybeSend_ok, hconn,
    downloadCallbacks_ok, hzero, List.isEmpty_nil, if_true, doOp, applyOp, hadd,
    Option.map_some']
  simp

theorem run_success_shape (db0 : Registry) (conns0 : List String)
    (raising : String → Bool) (url : List Char) (library_name : Option String)
    (c : String) (org repo : List Char) (fetch : FetchResult)
    (documents chunks : List Doc)
    (hparse : extract_org_repo url = some (org, repo))
    (hfresh : get_repository_by_path db0 (String.mk (org ++ '/' :: repo)) = none)
    (hfiles : (download_md_files fetch).2 ≠ [])
    (hconn : raising c = false) :
    process_repository_background db0 conns0 raising url library_name (some c)
        fetch (LoadResult.docs documents chunks) EmbedResult.ok
      = { db := add_repository
            (update_repository_counts
              (update_repository_status
                (add_repository db0 (displayNameOf repo) ""
                  (String.mk (org ++ '/' :: repo))
                  (String.mk ("https://github.com/".toList ++ org ++ '/' :: repo))
                  "in_progress" 0 0)
                db0.nextId "completed")
              db0.nextId (tokensCountOf documents) (snippetsCountOf documents))
            (displayNameOf repo) "" (String.mk (org ++ '/' :: repo))
            (String.mk ("https://github.com/".toList ++ org ++ '/' :: repo))
            "completed" (tokensCountOf documents) (snippetsCountOf documents),
          ops := [RegOp.add (displayNameOf repo) "" (String.mk (org ++ '/' :: repo))
              (String.mk ("https://github.com/".toList ++ org ++ '/' :: repo))
              "in_progress" 0 0,
            RegOp.updStatus db0.nextId "completed",
            RegOp.updCounts db0.nextId (tokensCountOf documents) (snippetsCountOf documents),
            RegOp.add (displayNameOf repo) "" (String.mk (org ++ '/' :: repo))
              (String.mk ("https://github.com/".toList ++ org ++ '/' :: repo))
              "completed" (tokensCountOf documents) (snippetsCountOf documents)],
          events := ⟨"download", "started",
              "开始下载 " ++ String.mk (org ++ '/' :: repo) ++ " 仓库..."⟩
            :: ((download_md_files fetch).1.map
                  (fun m => ⟨"download", "in_progress", m⟩)
              ++ [⟨"download", "completed",
                    "已下载 " ++ toString (download_md_files fetch).2.length
                      ++ " 个 Markdown 文件"⟩,
                  ⟨"embedding", "started", "开始嵌入文档..."⟩,
                  ⟨"embedding", "in_progress", "开始嵌入文档..."⟩,
                  ⟨"embedding", "in_progress", "文档嵌入完成"⟩,
                  ⟨"embedding", "completed",
                    "成功嵌入 " ++ toString chunks.length ++ " 个文档到表 "
                      ++ (match library_name with
                          | some l => l
                          | none => String.mk (org ++ '_' :: repo)).replace "-" "_"⟩,
                  ⟨"database", "completed", "已将仓库信息添加到数据库"⟩]),
          conns := conns0,
          wsCreated := true, wsDestroyed := true } := by
  have hadd := get_by_path_add_fresh db0 (displayNameOf repo) ""
    (String.mk (org ++ '/' :: repo))
    (String.mk ("https://github.com/".toList ++ org ++ '/' :: repo))
    "in_progress" 0 0 hfresh
  have hne : (download_md_files fetch).2.isEmpty = false := by
    rcases h2 : (download_md_files fetch).2 with _ | ⟨a, l⟩
    · exact absurd h2 hfiles
    · rfl
  simp only [process_repository_background, hparse, hfresh, maybeSend_ok, hconn,
    downloadCallbacks_ok, hne, Bool.false_eq_true, if_false, doOp, applyOp, hadd,
    Option.map_some']
  simp

theorem get_by_path_add_of_found (db : Registry) (nm ds rp' uf st : String)
    (tok sn : Nat) (rp : String) (rec : RepoRecord)
    (h : get_repository_by_path db rp = some rec) :
    get_repository_by_path (add_repository db nm ds rp' uf st tok sn) rp = some rec := by
  unfold get_repository_by_path at h ⊢
  unfold add_repository
  rw [List.find?_append, h]
  rfl

/-- C3: for every job whose fetch stage yields zero files, the orchestrator
emits a `download` event with status `error`, sets the Registry record's
status to `failed` (the record for the job's path is never left
`in_progress`), and destroys the transient workspace before terminating. -/
theorem c3_zero_files_marks_failed (db0 : Registry) (conns0 : List String)
    (raising : String → Bool) (url : List Char) (library_name : Option String)
    (c : String) (org repo : List Char) (fetch : FetchResult) (load : LoadResult)
    (embed : EmbedResult)
    (hparse : extract_org_repo url = some (org, repo))
    (hfresh : get_repository_by_path db0 (String.mk (org ++ '/' :: repo)) = none)
    (hzero : (download_md_files fetch).2 = [])
    (hconn : raising c = false) :
    (∃ rec, get_repository_by_path
        (process_repository_background db0 conns0 raising url library_name (some c)
          fetch load embed).db (String.mk (org ++ '/' :: repo)) = some rec
      ∧ rec.repo_status = "failed")
    ∧ (∀ r ∈ (process_repository_background db0 conns0 raising url library_name (some c)
          fetch load embed).db.rows,
        r.repo = String.mk (org ++ '/' :: repo) → r.repo_status = "failed")
    ∧ (⟨"download", "error", "仓库中未找到 Markdown 文件"⟩ : Event)
        ∈ (process_repository_background db0 conns0 raising url library_name (some c)
          fetch load embed).events
    ∧ (process_repository_background db0 conns0 raising url library_name (some c)
        fetch load embed).wsCreated = true
    ∧ (process_repository_background db0 conns0 raising url library_name (some c)
        fetch load embed).wsDestroyed = true := by
  rw [run_zero_files_shape db0 conns0 raising url library_name c org repo fetch load embed
    hparse hfresh hzero hconn]
  have hadd := get_by_path_add_fresh db0 (displayNameOf repo) ""
    (String.mk (org ++ '/' :: repo))
    (String.mk ("https://github.com/".toList ++ org ++ '/' :: repo))
    "in_progress" 0 0 hfresh
  refine ⟨⟨⟨db0.nextId, displayNameOf repo, "", String.mk (org ++ '/' :: repo),
      String.mk ("https://github.com/".toList ++ org ++ '/' :: repo),
      "failed", 0, 0⟩, ?_, rfl⟩, ?_, by simp, rfl, rfl⟩
  · rw [get_by_path_updStatus, hadd]
    simp
  · intro r hr hrepo
    simp only [update_repository_status, add_repository, List.mem_map,
      List.mem_append] at hr
    obtain ⟨r0, hr0, rfl⟩ := hr
    have hno := List.find?_eq_none.mp hfresh
    rcases hr0 with h0 | h0
    · exfalso
      have hr0repo : r0.repo = String.mk (org ++ '/' :: repo) := by
        by_cases hid : (r0.id == db0.nextId) = true <;> simp [hid] at hrepo <;> exact hrepo
      exact absurd (by simp [hr0repo]) (hno r0 h0)
    · simp only [List.mem_singleton] at h0
      subst h0
      simp

/-- Witness for C3: fresh registry, fetched tree with no markdown files,
connected subscriber `c1`. -/
theorem c3_zero_files_marks_failed_witness :
    (∃ rec, get_repository_by_path
        (process_repository_background ⟨[], 1⟩ [] (fun _ => false)
          "https://github.com/acme/widgets".toList none (some "c1")
          (FetchResult.tree [] []) (LoadResult.docs [] []) EmbedResult.ok).db
        (String.mk ("acme".toList ++ '/' :: "widgets".toList)) = some rec
      ∧ rec.repo_status = "failed")
    ∧ (⟨"download", "error", "仓库中未找到 Markdown 文件"⟩ : Event)
        ∈ (process_repository_background ⟨[], 1⟩ [] (fun _ => false)
          "https://github.com/acme/widgets".toList none (some "c1")
          (FetchResult.tree [] []) (LoadResult.docs [] []) EmbedResult.ok).events := by
  have h := c3_zero_files_marks_failed ⟨[], 1⟩ [] (fun _ => false)
    "https://github.com/acme/widgets".toList none "c1" "acme".toList "widgets".toList
    (FetchResult.tree [] []) (LoadResult.docs [] []) EmbedResult.ok
    (by decide) (by decide) (by decide) rfl
  exact ⟨h.1, h.2.2.1⟩

/-- C4: for every job whose embed-and-store stage succeeds, the record ends
with `status = completed` and with `tokenCount`/`snippetCount` equal to the
computed (hence non-negative) document sums; the registry-write trace shows
the status transition immediately followed by the counter write, and no later
write of the job touches this record again (the only later write is the
re-insert of a fresh row, claim C1's bug). -/
theorem c4_success_sets_completed_and_counts (db0 : Registry) (conns0 : List String)
    (raising : String → Bool) (url : List Char) (library_name : Option String)
    (c : String) (org repo : List Char) (fetch : FetchResult)
    (documents chunks : List Doc)
    (hparse : extract_org_repo url = some (org, repo))
    (hfresh : get_repository_by_path db0 (String.mk (org ++ '/' :: repo)) = none)
    (hfiles : (download_md_files fetch).2 ≠ [])
    (hconn : raising c = false) :
    (∃ rec, get_repository_by_path
        (process_repository_background db0 conns0 raising url library_name (some c)
          fetch (LoadResult.docs documents chunks) EmbedResult.ok).db
        (String.mk (org ++ '/' :: repo)) = some rec
      ∧ rec.id = db0.nextId
      ∧ rec.repo_status = "completed"
      ∧ rec.tokens = tokensCountOf documents
      ∧ rec.snippets = snippetsCountOf documents)
    ∧ (process_repository_background db0 conns0 raising url library_name (some c)
        fetch (LoadResult.docs documents chunks) EmbedResult.ok).ops
      = [RegOp.add (displayNameOf repo) "" (String.mk (org ++ '/' :: repo))
            (String.mk ("https://github.com/".toList ++ org ++ '/' :: repo))
            "in_progress" 0 0,
          RegOp.updStatus db0.nextId "completed",
          RegOp.updCounts db0.nextId (tokensCountOf documents) (snippetsCountOf documents),
          RegOp.add (displayNameOf repo) "" (String.mk (org ++ '/' :: repo))
            (String.mk ("https://github.com/".toList ++ org ++ '/' :: repo))
            "completed" (tokensCountOf documents) (snippetsCountOf documents)] := by
  rw [run_success_shape db0 conns0 raising url library_name c org repo fetch
    documents chunks hparse hfresh hfiles hconn]
  have hadd := get_by_path_add_fresh db0 (displayNameOf repo) ""
    (String.mk (org ++ '/' :: repo))
    (String.mk ("https://github.com/".toList ++ org ++ '/' :: repo))
    "in_progress" 0 0 hfresh
  have hinner : get_repository_by_path
      (update_repository_counts
        (update_repository_status
          (add_repository db0 (displayNameOf repo) "" (String.mk (org ++ '/' :: repo))
            (String.mk ("https://github.com/".toList ++ org ++ '/' :: repo))
            "in_progress" 0 0)
          db0.nextId "completed")
        db0.nextId (tokensCountOf documents) (snippetsCountOf documents))
      (String.mk (org ++ '/' :: repo))
      = some ⟨db0.nextId, displayNameOf repo, "", String.mk (org ++ '/' :: repo),
          String.mk ("https://github.com/".toList ++ org ++ '/' :: repo),
          "completed", tokensCountOf documents, snippetsCountOf documents⟩ := by
    rw [get_by_path_updCounts, get_by_path_updStatus, hadd]
    simp
  refine ⟨⟨⟨db0.nextId, displayNameOf repo, "", String.mk (org ++ '/' :: repo),
      String.mk ("https://github.com/".toList ++ org ++ '/' :: repo),
      "completed", tokensCountOf documents, snippetsCountOf documents⟩,
    ?_, rfl, rfl, rfl, rfl⟩, rfl⟩
  exact get_by_path_add_of_found _ _ _ _ _ _ _ _ _ _ hinner

/-- Witness for C4: fresh registry, one downloaded file, two documents with
word counts 3 and 4 and one fenced block, embedding succeeds. -/
theorem c4_success_sets_completed_and_counts_witness :
    ∃ rec, get_repository_by_path
        (process_repository_background ⟨[], 1⟩ [] (fun _ => false)
          "https://github.com/acme/widgets".toList none (some "c1")
          (FetchResult.tree ["README.md"] ["README.md"])
          (LoadResult.docs [⟨3, 1⟩, ⟨4, 0⟩] [⟨3, 1⟩]) EmbedResult.ok).db
        (String.mk ("acme".toList ++ '/' :: "widgets".toList)) = some rec
      ∧ rec.id = 1
      ∧ rec.repo_status = "completed"
      ∧ rec.tokens = tokensCountOf [⟨3, 1⟩, ⟨4, 0⟩]
      ∧ rec.snippets = snippetsCountOf [⟨3, 1⟩, ⟨4, 0⟩] := by
  have h := c4_success_sets_completed_and_counts ⟨[], 1⟩ [] (fun _ => false)
    "https://github.com/acme/widgets".toList none "c1" "acme".toList "widgets".toList
    (FetchResult.tree ["README.md"] ["README.md"]) [⟨3, 1⟩, ⟨4, 0⟩] [⟨3, 1⟩]
    (by decide) (by decide) (by decide) rfl
  exact h.1

theorem lastDownloadEvent_zero_files (db : Registry) (ops : List RegOp)
    (conns : List String) (wsC wsD : Bool) (m0 : String) (msgs : List String) :
    lastDownloadEvent ⟨db, ops,
        (⟨"download", "started", m0⟩ : Event)
          :: (msgs.map (fun m => ⟨"download", "in_progress", m⟩)
            ++ [⟨"download", "error", "仓库中未找到 Markdown 文件"⟩]),
        conns, wsC, wsD⟩
      = some ⟨"download", "error", "仓库中未找到 Markdown 文件"⟩ := by
  have hmap : (msgs.map (fun m => (⟨"download", "in_progress", m⟩ : Event))).filter
      (fun e => e.type == "download") = msgs.map (fun m => ⟨"download", "in_progress", m⟩) := by
    rw [List.filter_eq_self]
    intro a ha
    obtain ⟨m, _, rfl⟩ := List.mem_map.mp ha
    rfl
  unfold lastDownloadEvent
  simp only [List.filter_cons, List.filter_append, hmap]
  norm_num
  rw [show (⟨"download", "started", m0⟩ : Event)
        :: (msgs.map (fun m => (⟨"download", "in_progress", m⟩ : Event))
          ++ [⟨"download", "error", "仓库中未找到 Markdown 文件"⟩])
      = ((⟨"download", "started", m0⟩ : Event)
          :: msgs.map (fun m => (⟨"download", "in_progress", m⟩ : Event)))
          ++ [⟨"download", "error", "仓库中未找到 Markdown 文件"⟩] from rfl]
  exact List.getLast?_concat _

/-- C10 (implicit): every upstream failure inside the fetch stage makes the
downloader return the empty file list, after which the orchestrator behaves
exactly as for a genuinely empty repository: same terminal `download:error`
event with the no-markdown-files message, and the same final registry (record
marked `failed`); only the intermediate `in_progress` callback messages can
differ. -/
theorem c10_upstream_failure_like_empty (db0 : Registry) (conns0 : List String)
    (raising : String → Bool) (url : List Char) (library_name : Option String)
    (c : String) (org repo : List Char) (f : FetchResult)
    (load load' : LoadResult) (embed embed' : EmbedResult)
    (hparse : extract_org_repo url = some (org, repo))
    (hfresh : get_repository_by_path db0 (String.mk (org ++ '/' :: repo)) = none)
    (hconn : raising c = false)
    (hf : isUpstreamFailure f) :
    (download_md_files f).2 = []
    ∧ (process_repository_background db0 conns0 raising url library_name (some c)
        f load embed).db
      = (process_repository_background db0 conns0 raising url library_name (some c)
        (FetchResult.tree [] []) load' embed').db
    ∧ lastDownloadEvent (process_repository_background db0 conns0 raising url
        library_name (some c) f load embed)
      = some ⟨"download", "error", "仓库中未找到 Markdown 文件"⟩
    ∧ lastDownloadEvent (process_repository_background db0 conns0 raising url
        library_name (some c) (FetchResult.tree [] []) load' embed')
      = some ⟨"download", "error", "仓库中未找到 Markdown 文件"⟩
    ∧ (∃ rec, get_repository_by_path
        (process_repository_background db0 conns0 raising url library_name (some c)
          f load embed).db (String.mk (org ++ '/' :: repo)) = some rec
      ∧ rec.repo_status = "failed") := by
  have hzero : (download_md_files f).2 = [] := by
    cases f with
    | tree md downloaded => exact hf.elim
    | parseError msg => rfl
    | noToken => rfl
    | initError msg => rfl
    | repoError msg => rfl
    | githubExc msg => rfl
    | otherExc msg => rfl
  have hzero' : (download_md_files (FetchResult.tree [] [])).2 = [] := rfl
  rw [run_zero_files_shape db0 conns0 raising url library_name c org repo f load embed
      hparse hfresh hzero hconn,
    run_zero_files_shape db0 conns0 raising url library_name c org repo
      (FetchResult.tree [] []) load' embed' hparse hfresh hzero' hconn]
  have hadd := get_by_path_add_fresh db0 (displayNameOf repo) ""
    (String.mk (org ++ '/' :: repo))
    (String.mk ("https://github.com/".toList ++ org ++ '/' :: repo))
    "in_progress" 0 0 hfresh
  refine ⟨hzero, rfl, lastDownloadEvent_zero_files _ _ _ _ _ _ _,
    lastDownloadEvent_zero_files _ _ _ _ _ _ _,
    ⟨db0.nextId, displayNameOf repo, "", String.mk (org ++ '/' :: repo),
      String.mk ("https://github.com/".toList ++ org ++ '/' :: repo),
      "failed", 0, 0⟩, ?_, rfl⟩
  rw [get_by_path_updStatus, hadd]
  simp

/-- Witness for C10 at a concrete GitHub API failure (`githubExc "403 rate limited"`). -/
theorem c10_upstream_failure_like_empty_witness :
    lastDownloadEvent (process_repository_background ⟨[], 1⟩ [] (fun _ => false)
        "https://github.com/acme/widgets".toList none (some "c1")
        (FetchResult.githubExc "403 rate limited") (LoadResult.docs [] [])
        EmbedResult.ok)
      = some ⟨"download", "error", "仓库中未找到 Markdown 文件"⟩
    ∧ (process_repository_background ⟨[], 1⟩ [] (fun _ => false)
        "https://github.com/acme/widgets".toList none (some "c1")
        (FetchResult.githubExc "403 rate limited") (LoadResult.docs [] [])
        EmbedResult.ok).db
      = (process_repository_background ⟨[], 1⟩ [] (fun _ => false)
        "https://github.com/acme/widgets".toList none (some "c1")
        (FetchResult.tree [] []) (LoadResult.docs [] []) EmbedResult.ok).db := by
  have h := c10_upstream_failure_like_empty ⟨[], 1⟩ [] (fun _ => false)
    "https://github.com/acme/widgets".toList none "c1" "acme".toList "widgets".toList
    (FetchResult.githubExc "403 rate limited") (LoadResult.docs [] [])
    (LoadResult.docs [] []) EmbedResult.ok EmbedResult.ok
    (by decide) (by decide) rfl trivial
  exact ⟨h.2.2.1, h.2.1⟩

theorem run_db_shape (db0 : Registry) (conns0 : List String)
    (raising : String → Bool) (url : List Char) (library_name : Option String)
    (cid : Option String) (fetch : FetchResult) (load : LoadResult)
    (embed : EmbedResult) (org repo : List Char)
    (hparse : extract_org_repo url = some (org, repo))
    (hfresh : get_repository_by_path db0 (String.mk (org ++ '/' :: repo)) = none) :
    (process_repository_background db0 conns0 raising url library_name cid
        fetch load embed).db
      = (if (download_md_files fetch).2.isEmpty then
          update_repository_status
            (add_repository db0 (displayNameOf repo) "" (String.mk (org ++ '/' :: repo))
              (String.mk ("https://github.com/".toList ++ org ++ '/' :: repo))
              "in_progress" 0 0) db0.nextId "failed"
        else match load with
          | LoadResult.raises _ =>
            add_repository db0 (displayNameOf repo) "" (String.mk (org ++ '/' :: repo))
              (String.mk ("https://github.com/".toList ++ org ++ '/' :: repo))
              "in_progress" 0 0
          | LoadResult.docs documents _ =>
            match embed with
            | EmbedResult.ok =>
              add_repository
                (update_repository_counts
                  (update_repository_status
                    (add_repository db0 (displayNameOf repo) ""
                      (String.mk (org ++ '/' :: repo))
                      (String.mk ("https://github.com/".toList ++ org ++ '/' :: repo))
                      "in_progress" 0 0)
                    db0.nextId "completed")
                  db0.nextId (tokensCountOf documents) (snippetsCountOf documents))
                (displayNameOf repo) "" (String.mk (org ++ '/' :: repo))
                (String.mk ("https://github.com/".toList ++ org ++ '/' :: repo))
                "completed" (tokensCountOf documents) (snippetsCountOf documents)
            | EmbedResult.raises _ =>
              update_repository_status
                (add_repository db0 (displayNameOf repo) ""
                  (String.mk (org ++ '/' :: repo))
                  (String.mk ("https://github.com/".toList ++ org ++ '/' :: repo))
                  "in_progress" 0 0) db0.nextId "failed") := by
  have hadd := get_by_path_add_fresh db0 (displayNameOf repo) ""
    (String.mk (org ++ '/' :: repo))
    (String.mk ("https://github.com/".toList ++ org ++ '/' :: repo))
    "in_progress" 0 0 hfresh
  simp only [process_repository_background, hparse, hfresh, doOp, applyOp, hadd,
    Option.map_some']
  cases hie : (download_md_files fetch).2.isEmpty with
  | false =>
    cases load with
    | raises msg =>
      simp only [hie, Bool.false_eq_true, if_false]
      split <;> simp
    | docs documents chunks =>
      cases embed <;> simp [hie]
  | true => simp [hie]

theorem get_by_path_updStatus_pres (db : Registry) (i : Nat) (st rp : String)
    (rec : RepoRecord) (h : get_repository_by_path db rp = some rec) :
    ∃ rec', get_repository_by_path (update_repository_status db i st) rp = some rec'
      ∧ rec'.repo = rec.repo := by
  rw [get_by_path_updStatus, h]
  refine ⟨_, rfl, ?_⟩
  by_cases hid : (rec.id == i) = true <;> simp [hid]

theorem get_by_path_updCounts_pres (db : Registry) (i tok sn : Nat) (rp : String)
    (rec : RepoRecord) (h : get_repository_by_path db rp = some rec) :
    ∃ rec', get_repository_by_path (update_repository_counts db i tok sn) rp = some rec'
      ∧ rec'.repo = rec.repo := by
  rw [get_by_path_updCounts, h]
  refine ⟨_, rfl, ?_⟩
  by_cases hid : (rec.id == i) = true <;> simp [hid]

theorem run_creates_record (db0 : Registry) (conns0 : List String)
    (raising : String → Bool) (url : List Char) (library_name : Option String)
    (cid : Option String) (fetch : FetchResult) (load : LoadResult)
    (embed : EmbedResult) (org repo : List Char)
    (hparse : extract_org_repo url = some (org, repo))
    (hfresh : get_repository_by_path db0 (String.mk (org ++ '/' :: repo)) = none) :
    ∃ rec, get_repository_by_path (process_repository_background db0 conns0 raising url
        library_name cid fetch load embed).db (String.mk (org ++ '/' :: repo)) = some rec
      ∧ rec.repo = String.mk (org ++ '/' :: repo) := by
  have hadd := get_by_path_add_fresh db0 (displayNameOf repo) ""
    (String.mk (org ++ '/' :: repo))
    (String.mk ("https://github.com/".toList ++ org ++ '/' :: repo))
    "in_progress" 0 0 hfresh
  rw [run_db_shape db0 conns0 raising url library_name cid fetch load embed org repo
    hparse hfresh]
  cases hie : (download_md_files fetch).2.isEmpty with
  | false =>
    simp only [hie, Bool.false_eq_true, if_false]
    cases load with
    | raises msg => exact ⟨_, hadd, rfl⟩
    | docs documents chunks =>
      cases embed with
      | ok =>
        obtain ⟨r1, h1, hr1⟩ := get_by_path_updStatus_pres _ db0.nextId "completed" _ _ hadd
        obtain ⟨r2, h2, hr2⟩ := get_by_path_updCounts_pres _ db0.nextId
          (tokensCountOf documents) (snippetsCountOf documents) _ _ h1
        refine ⟨r2, get_by_path_add_of_found _ _ _ _ _ _ _ _ _ _ h2, ?_⟩
        rw [hr2, hr1]
      | raises msg =>
        obtain ⟨r1, h1, hr1⟩ := get_by_path_updStatus_pres _ db0.nextId "failed" _ _ hadd
        exact ⟨r1, h1, by rw [hr1]⟩
  | true =>
    simp only [hie, if_true]
    obtain ⟨r1, h1, hr1⟩ := get_by_path_updStatus_pres _ db0.nextId "failed" _ _ hadd
    exact ⟨r1, h1, by rw [hr1]⟩

/-- C2: submitting the same reference twice in sequence (the background job of
the first submission having run to any outcome, so its record exists) creates
no second Registry record: the second admission returns the benign `exists`
outcome carrying the existing record's storage identifier and query-page URL,
schedules no background job, and leaves the registry — hence the original
record's status and counters — unchanged. -/
theorem c2_second_submission_is_noop (db0 : Registry) (conns0 conns2 : List String)
    (raising raising2 : String → Bool) (url : List Char) (library_name : Option String)
    (cid cid2 : Option String) (fetch fetch2 : FetchResult) (load load2 : LoadResult)
    (embed embed2 : EmbedResult) (org repo : List Char)
    (hparse : extract_org_repo url = some (org, repo))
    (hfresh : get_repository_by_path db0 (String.mk (org ++ '/' :: repo)) = none) :
    ∃ resp1 st1 resp2 st2,
      handle_download db0 conns0 raising url library_name cid fetch load embed
        = some (resp1, st1)
      ∧ resp1.status = "accepted"
      ∧ handle_download st1.db conns2 raising2 url library_name cid2 fetch2 load2 embed2
        = some (resp2, st2)
      ∧ resp2.status = "exists"
      ∧ st2.db = st1.db
      ∧ st2.ops = []
      ∧ ∃ rec, get_repository_by_path st1.db (String.mk (org ++ '/' :: repo)) = some rec
          ∧ rec.repo = String.mk (org ++ '/' :: repo)
          ∧ resp2.table_name = (rec.repo.replace "/" "_").replace "-" "_"
          ∧ resp2.query_url = "http://localhost:3000/query?table=" ++ resp2.table_name
              ++ "&repo_name=" ++ rec.name ++ "&repo_path=" ++ rec.repo := by
  obtain ⟨rec, hrec, hrepo⟩ := run_creates_record db0 conns0 raising url library_name
    cid fetch load embed org repo hparse hfresh
  have h1 : handle_download db0 conns0 raising url library_name cid fetch load embed
      = some (({
          status := "accepted",
          message := "Repository processing started in background. You can continue using the application while the repository is being processed.",
          table_name := (match library_name with | some l => l | none => String.mk (org ++ '_' :: repo)).replace "-" "_",
          query_url := "http://localhost:3000/query?table=" ++ (match library_name with | some l => l | none => String.mk (org ++ '_' :: repo)).replace "-" "_" ++ "&repo_name=" ++ displayNameOf repo ++ "&repo_path=" ++ String.mk (org ++ '/' :: repo),
          repo_path := String.mk (org ++ '/' :: repo) } : DownloadResponse),
        process_repository_background db0 conns0 raising url library_name cid
          fetch load embed) := by
    simp [handle_download, download_repository, hparse, hfresh]
  have h2 : handle_download (process_repository_background db0 conns0 raising url
        library_name cid fetch load embed).db conns2 raising2 url library_name cid2
        fetch2 load2 embed2
      = some (({
          status := "exists",
          message := "This repository has already been submitted. Check " ++ rec.repo ++ " to see it.",
          table_name := (rec.repo.replace "/" "_").replace "-" "_",
          query_url := "http://localhost:3000/query?table=" ++ (rec.repo.replace "/" "_").replace "-" "_" ++ "&repo_name=" ++ rec.name ++ "&repo_path=" ++ rec.repo,
          repo_path := rec.repo } : DownloadResponse),
        { db := (process_repository_background db0 conns0 raising url library_name cid
            fetch load embed).db,
          ops := [], events := [], conns := conns2,
          wsCreated := false, wsDestroyed := false }) := by
    simp [handle_download, download_repository, hparse, hrec]
  exact ⟨_, _, _, _, h1, rfl, h2, rfl, rfl, rfl, rec, hrec, hrepo, rfl, rfl⟩

/-- Witness for C2: concrete double submission of `acme/widgets` after a
successful first ingestion. -/
theorem c2_second_submission_is_noop_witness :
    ∃ resp1 st1 resp2 st2,
      handle_download ⟨[], 1⟩ [] (fun _ => false)
          "https://github.com/acme/widgets".toList none none
          (FetchResult.tree ["README.md"] ["README.md"])
          (LoadResult.docs [⟨3, 1⟩] [⟨3, 1⟩]) EmbedResult.ok = some (resp1, st1)
      ∧ resp1.status = "accepted"
      ∧ handle_download st1.db [] (fun _ => false)
          "https://github.com/acme/widgets".toList none none
          (FetchResult.tree ["README.md"] ["README.md"])
          (LoadResult.docs [⟨3, 1⟩] [⟨3, 1⟩]) EmbedResult.ok = some (resp2, st2)
      ∧ resp2.status = "exists"
      ∧ st2.db = st1.db := by
  obtain ⟨resp1, st1, resp2, st2, ha, hb, hc, hd, he, _⟩ :=
    c2_second_submission_is_noop ⟨[], 1⟩ [] [] (fun _ => false) (fun _ => false)
      "https://github.com/acme/widgets".toList none none none
      (FetchResult.tree ["README.md"] ["README.md"])
      (FetchResult.tree ["README.md"] ["README.md"])
      (LoadResult.docs [⟨3, 1⟩] [⟨3, 1⟩]) (LoadResult.docs [⟨3, 1⟩] [⟨3, 1⟩])
      EmbedResult.ok EmbedResult.ok "acme".toList "widgets".toList
      (by decide) (by decide)
  exact ⟨resp1, st1, resp2, st2, ha, hb, hc, hd, he⟩
